import Mathlib

/-!
Verification development for the cricket-bingo game engine (`app.py`).

The Python source is shallowly embedded below.  Randomness (`random.choice`,
`random.shuffle`, `random.randint`, `random.seed`) is modelled by an explicit
generator state `Rng`: a stream of natural numbers together with a position;
each primitive draw consumes one stream element, and an index into a list of
length `k` is obtained as `stream pos % k`.  `random.seed s` is modelled by
replacing the generator with a fresh stream `seedGen s` obtained from an
arbitrary (universally quantified) seeding function, mirroring the fact that
Python's Mersenne Twister is a deterministic function of the seed.  Python
dict fields that may be absent are modelled with `""` / `[]` defaults exactly
where the source reads them with `.get(..., default)`.
-/

/-- A player record as loaded from the JSON data files.  Missing optional
fields (`team`, `iplTeams`, `trophies`, `nation`, `id`) are represented by
`""` resp. `[]`, matching the `.get` defaults used at every read site in the
source. -/
structure Player where
  id : String
  name : String
  nation : String
  team : String
  iplTeams : List String
  trophies : List String
deriving DecidableEq, Repr

/-- A grid cell: `{"type": ..., "value": ...}` in the source. -/
structure Cell where
  type : String
  value : String
deriving DecidableEq, Repr

/-- The two player pools loaded at startup (`OVERALL_DATA`, `IPL26_DATA`). -/
structure Pools where
  overall : List Player
  ipl26 : List Player
deriving DecidableEq, Repr

/-- `get_pool(ds)` from the source. -/
def getPool (pools : Pools) (ds : String) : List Player :=
  if ds = "overall" then pools.overall else pools.ipl26

/-- Explicit pseudo-random generator state: a stream of naturals plus a
position.  Stands for Python's global `random` state. -/
structure Rng where
  stream : Nat → Nat
  pos : Nat

/-- Draw one raw value from the generator. -/
def Rng.next (r : Rng) : Nat × Rng :=
  (r.stream r.pos, { r with pos := r.pos + 1 })

/-- `random.choice(l)`: consumes one draw and picks the element at
`draw % l.length` (the default `d` is only reached on an empty list, which
every call site in the source guards against). -/
def rchoice {α : Type} (l : List α) (d : α) (r : Rng) : α × Rng :=
  let k := (Rng.next r).1
  let r1 := (Rng.next r).2
  (l.getD (k % l.length) d, r1)

/-- `random.randint(lo, hi)` (inclusive bounds). -/
def randint (lo hi : Nat) (r : Rng) : Nat × Rng :=
  let k := (Rng.next r).1
  let r1 := (Rng.next r).2
  (lo + k % (hi - lo + 1), r1)

/-- Fuelled draw-without-replacement shuffle; `fuel` is initialised to the
list length, so the first pattern is never hit on the real call path. -/
def shuffleAux {α : Type} : Nat → List α → Rng → List α × Rng
  | 0, _, r => ([], r)
  | _ + 1, [], r => ([], r)
  | fuel + 1, a :: as, r =>
      let k := (Rng.next r).1
      let r1 := (Rng.next r).2
      let i := k % (a :: as).length
      let x := (a :: as).getD i a
      let rest := (a :: as).eraseIdx i
      let s := shuffleAux fuel rest r1
      (x :: s.1, s.2)

/-- `random.shuffle(l)`: an Rng-driven permutation of `l` (Fisher–Yates style
draw-without-replacement). -/
def shuffleRng {α : Type} (l : List α) (r : Rng) : List α × Rng :=
  shuffleAux l.length l r

/-- The distinct team names a pool offers for a data source: the set unions
built inside `gen_cell` (`{t for p in pool for t in p["iplTeams"]}` for
"overall", `{p["team"] for p in pool if p.get("team")}` otherwise). -/
def teamsList (ds : String) (pool : List Player) : List String :=
  if ds = "overall" then (pool.flatMap (fun p => p.iplTeams)).dedup
  else ((pool.map (fun p => p.team)).filter (fun t => t ≠ "")).dedup

/-- `{p["nation"] for p in pool if p.get("nation")}`. -/
def nationsList (pool : List Player) : List String :=
  ((pool.map (fun p => p.nation)).filter (fun t => t ≠ "")).dedup

/-- `{t for p in pool for t in p["trophies"]}`. -/
def trophiesList (pool : List Player) : List String :=
  (pool.flatMap (fun p => p.trophies)).dedup

/-- Default player used only to satisfy totality of `List.getD`; unreachable
behind the non-emptiness guards of the source. -/
def dfltPlayer : Player := ⟨"", "", "", "", [], []⟩

/-- `gen_cell(pool, ds, difficulty, cell_type)` from the source, with the
generator threaded explicitly.  The chain of `if`s mirrors the source's
sequence of early returns, ending in the nation fallback (hardcoded
"India" when the pool has no nations). -/
def gen_cell (pool : List Player) (ds difficulty cellType : String) (r : Rng) :
    Cell × Rng :=
  if pool = [] then (⟨"team", "Unknown"⟩, r)
  else if cellType = "combo" ∧ difficulty = "hard" then
    let pr := rchoice pool dfltPlayer r
    let p := pr.1
    let r1 := pr.2
    if ds = "overall" ∧ p.iplTeams ≠ [] then
      let tr0 := rchoice p.iplTeams "" r1
      let t := tr0.1
      let r2 := tr0.2
      if p.trophies ≠ [] then
        let tro := rchoice p.trophies "" r2
        let tr := tro.1
        let r3 := tro.2
        let vr := rchoice [t ++ " + " ++ p.nation, t ++ " + " ++ tr,
                           p.nation ++ " + " ++ tr] "" r3
        (⟨"combo", vr.1⟩, vr.2)
      else
        let vr := rchoice [t ++ " + " ++ p.nation] "" r2
        (⟨"combo", vr.1⟩, vr.2)
    else
      (⟨"combo", (if p.team = "" then "?" else p.team) ++ " + " ++
                 (if p.nation = "" then "?" else p.nation)⟩, r1)
  else if cellType = "team" ∧ teamsList ds pool ≠ [] then
    let vr := rchoice (teamsList ds pool) "" r
    (⟨"team", vr.1⟩, vr.2)
  else if cellType = "nation" ∧ nationsList pool ≠ [] then
    let vr := rchoice (nationsList pool) "" r
    (⟨"nation", vr.1⟩, vr.2)
  else if cellType = "trophy" ∧ ds = "overall" ∧ trophiesList pool ≠ [] then
    let vr := rchoice (trophiesList pool) "" r
    (⟨"trophy", vr.1⟩, vr.2)
  else
    if nationsList pool = [] then (⟨"nation", "India"⟩, r)
    else
      let vr := rchoice (nationsList pool) "" r
      (⟨"nation", vr.1⟩, vr.2)

/-- The requested cell-type quota list of `build_grid` (before shuffling):
easy → n team; hard → n/3 team, n/3 nation, rest combo; otherwise (normal)
→ n/2 team, rest nation. -/
def quotaList (difficulty : String) (n : Nat) : List String :=
  if difficulty = "easy" then List.replicate n "team"
  else if difficulty = "hard" then
    List.replicate (n / 3) "team" ++ List.replicate (n / 3) "nation" ++
      List.replicate (n - 2 * (n / 3)) "combo"
  else List.replicate (n / 2) "team" ++ List.replicate (n - n / 2) "nation"

/-- The inner retry loop of `build_grid`: up to `fuel` (= 20) attempts to
generate a cell whose value is not in `seen`; returns `none` when all
attempts collide. -/
def tryGen (pool : List Player) (ds difficulty t : String) :
    Nat → List String → Rng → Option Cell × Rng
  | 0, _, r => (none, r)
  | fuel + 1, seen, r =>
      let cr := gen_cell pool ds difficulty t r
      if cr.1.value ∈ seen then tryGen pool ds difficulty t fuel seen cr.2
      else (some cr.1, cr.2)

/-- The per-type generation fold of `build_grid`: on a dedup success the
value joins `seen`; after 20 collisions the source's `for ... else` arm
generates once more and accepts the duplicate (without extending `seen`). -/
def genLoop (pool : List Player) (ds difficulty : String) :
    List String → List String → Rng → List Cell × Rng
  | [], _, r => ([], r)
  | t :: ts, seen, r =>
      let tg := tryGen pool ds difficulty t 20 seen r
      match tg.1 with
      | some c =>
          let rest := genLoop pool ds difficulty ts (c.value :: seen) tg.2
          (c :: rest.1, rest.2)
      | none =>
          let cr := gen_cell pool ds difficulty t tg.2
          let rest := genLoop pool ds difficulty ts seen cr.2
          (cr.1 :: rest.1, rest.2)

/-- `build_grid(size, ds, difficulty)` from the source. -/
def build_grid (size : Nat) (ds difficulty : String) (pools : Pools)
    (r : Rng) : List Cell × Rng :=
  let pool := getPool pools ds
  if pool = [] then ([], r)
  else
    let n := size * size
    let sh := shuffleRng (quotaList difficulty n) r
    genLoop pool ds difficulty sh.1 [] sh.2

/-- Split a character list at every occurrence of `c` (Python
`s.split(c)`, which keeps empty fragments and returns `[""]` on `""`). -/
def splitOnChar (c : Char) : List Char → List (List Char)
  | [] => [[]]
  | a :: as =>
      let r := splitOnChar c as
      if a = c then [] :: r
      else
        match r with
        | [] => [[a]]
        | hd :: tl => (a :: hd) :: tl

/-- Python `cv.split("+")` (the separator is the single character `+`). -/
def pySplitPlus (s : String) : List String :=
  (splitOnChar (Char.ofNat 43) s.data).map (fun l => ⟨l⟩)

/-- Python `p.strip()`: drop whitespace from both ends. -/
def pyStrip (s : String) : String :=
  ⟨(((s.data.dropWhile Char.isWhitespace).reverse).dropWhile
      Char.isWhitespace).reverse⟩

/-- The team list `player_matches_cell` checks against: full franchise
history for "overall", the single current team otherwise
(`[player.get("team", "")]`). -/
def teams_of (player : Player) (ds : String) : List String :=
  if ds = "overall" then player.iplTeams else [player.team]

/-- The trophy list `player_matches_cell` checks against (empty for the
"current" source). -/
def trophies_of (player : Player) (ds : String) : List String :=
  if ds = "overall" then player.trophies else []

/-- `player_matches_cell(player, cell, ds)` from the source. -/
def player_matches_cell (player : Player) (cell : Cell) (ds : String) : Bool :=
  if cell.type = "team" then (teams_of player ds).contains cell.value
  else if cell.type = "nation" then cell.value == player.nation
  else if cell.type = "trophy" then (trophies_of player ds).contains cell.value
  else if cell.type = "combo" then
    ((pySplitPlus cell.value).map pyStrip).all
      (fun p => (teams_of player ds).contains p || p == player.nation ||
                (trophies_of player ds).contains p)
  else false

/-- The full per-session game state built by `create_game_state`.
`started_at` (wall clock) is supplied by the caller as `now`. -/
structure GameState where
  data_source : String
  grid_size : Nat
  difficulty : String
  grid : List Cell
  players : List Player
  current_player_idx : Nat
  grid_state : List (Option String)
  skips_used : Nat
  wildcard_used : Bool
  correct : Nat
  wrong : Nat
  started_at : ℚ
  seed : Nat
deriving Repr

/-- `create_game_state(ds, grid_size, difficulty, seed)` from the source.
`seedGen` models `random.seed`: seeding replaces the ambient generator `g`
by the deterministic stream `seedGen s`.  Note the source shuffles a copy of
the pool for the candidate queue while `build_grid` reads the unshuffled
global pool again. -/
def create_game_state (pools : Pools) (ds : String) (grid_size : Nat)
    (difficulty : String) (seed : Option Nat) (seedGen : Nat → Nat → Nat)
    (g : Rng) (now : ℚ) : Option GameState × Rng :=
  let r0 : Rng := match seed with
    | some s => { stream := seedGen s, pos := 0 }
    | none => g
  let pool := getPool pools ds
  if pool = [] then (none, r0)
  else
    let sh := shuffleRng pool r0
    let n := grid_size * grid_size
    let selected := sh.1.take (min sh.1.length (n * 3))
    let bg := build_grid grid_size ds difficulty pools sh.2
    let sv : Nat × Rng := match seed with
      | some s => if s ≠ 0 then (s, bg.2) else randint 0 9999999 bg.2
      | none => randint 0 9999999 bg.2
    (some { data_source := ds, grid_size := grid_size, difficulty := difficulty,
            grid := bg.1, players := selected, current_player_idx := 0,
            grid_state := List.replicate n none, skips_used := 0,
            wildcard_used := false, correct := 0, wrong := 0,
            started_at := now, seed := sv.1 }, sv.2)

/-- `calcScore()` from the client script, over exact rationals (`G.correct`,
`G.wrong`, the fill array `G.gstate`, elapsed seconds and the grid size
`G.gs`).  `Math.round` is round-half-up, i.e. Mathlib's `round`. -/
def calcScore (correct wrong : Nat) (gstate : List (Option String))
    (elapsed : ℚ) (gs : Nat) : ℤ :=
  let a : Nat := correct + wrong
  let acc : ℚ := if a > 0 then (correct : ℚ) / (a : ℚ) * 100 else 0
  let filled : Bool := gstate.all (fun x => x.isSome)
  max 0 (round ((correct : ℚ) * 100 + acc * 2 + (if filled then 200 else 0) -
    max 0 ((elapsed - ((gs * gs * 15 : Nat) : ℚ)) * (1 / 2))))

/-- Modelled from the spec's wording: `accuracy =
correctCount/(correctCount+wrongCount)*100` and 0 when no attempts yet. -/
def accuracy_spec (correct wrong : Nat) : ℚ :=
  if correct + wrong = 0 then 0 else (correct : ℚ) / ((correct + wrong : Nat) : ℚ) * 100

/-- Modelled from the spec's wording: `completionBonus = 200` iff every grid
cell is filled, else 0. -/
def completionBonus_spec (gstate : List (Option String)) : ℚ :=
  if gstate.all (fun x => x.isSome) then 200 else 0

/-- Modelled from the spec's wording: `score = max(0, round(correctCount*100 +
accuracy*2 + completionBonus - max(0, (elapsedSeconds - size²*15) * 0.5)))`. -/
def score_spec (correct wrong : Nat) (gstate : List (Option String))
    (elapsed : ℚ) (gs : Nat) : ℤ :=
  max 0 (round ((correct : ℚ) * 100 + accuracy_spec correct wrong * 2 +
    completionBonus_spec gstate -
    max 0 ((elapsed - ((gs * gs * 15 : Nat) : ℚ)) * (1 / 2))))

/-- `elo_update(r, exp, act, k)` from the source. -/
def elo_update (r exp act k : ℚ) : ℚ := r + k * (act - exp)

/-- The pair of rating deltas applied by `api_end_game`: player 1 is updated
with `(exp1, act1)` and player 2 simultaneously with `(1-exp1, 1-act1)`,
both from their pre-match ratings, `k = 32`. -/
def rated_deltas (rat1 rat2 exp1 act1 : ℚ) : ℚ × ℚ :=
  (elo_update rat1 exp1 act1 32 - rat1, elo_update rat2 (1 - exp1) (1 - act1) 32 - rat2)

/-- Which of the two room players wins a rated match. -/
inductive Winner where
  | p1
  | p2
deriving DecidableEq, Repr

/-- The winner resolution line of `api_end_game`:
`p1 if r1["score"] > r2["score"] or (r1["score"] == r2["score"] and
r1["elapsed"] <= r2["elapsed"]) else p2`. -/
def resolve_winner (s1 e1 s2 e2 : ℚ) : Winner :=
  if s1 > s2 ∨ (s1 = s2 ∧ e1 ≤ e2) then Winner.p1 else Winner.p2

/-- Modelled from the spec's wording: winner is the player with strictly
higher reported score; on equal scores the faster-or-equal player wins. -/
def winner_spec (s1 e1 s2 e2 : ℚ) : Winner :=
  if s1 > s2 then Winner.p1
  else if s2 > s1 then Winner.p2
  else if e1 ≤ e2 then Winner.p1 else Winner.p2

/-- A row of the `matchmaking_queue` table. -/
structure Ticket where
  user : Nat
  rating : ℚ
  ds : String
  gs : Nat
  diff : String
deriving DecidableEq, Repr

/-- The SQL candidate filter of `on_queue`: another user with identical
`(data_source, grid_size, difficulty)` and `ABS(rating - rat) <= 300`. -/
def compatible (t u : Ticket) : Bool :=
  decide (u.user ≠ t.user) && decide (u.ds = t.ds) && decide (u.gs = t.gs) &&
    decide (u.diff = t.diff) && decide (|u.rating - t.rating| ≤ 300)

/-- `ORDER BY ABS(rating - rat) ASC LIMIT 1`: a closest-rating candidate
(ties resolved to the earlier list element; the SQL order on ties is
unspecified). -/
def closest (rat : ℚ) : List Ticket → Option Ticket
  | [] => none
  | t :: ts =>
      match closest rat ts with
      | none => some t
      | some u => if |u.rating - rat| < |t.rating - rat| then some u else some t

/-- `on_queue`: INSERT OR REPLACE the caller's ticket, search for a
compatible opponent, and on success delete both tickets (the created room
binds the opponent as player 1 and the caller as player 2).  Returns the
paired `(player1, player2)` user ids, if any, and the queue afterwards. -/
def enqueue (q : List Ticket) (t : Ticket) : Option (Nat × Nat) × List Ticket :=
  let q1 := t :: q.filter (fun u => u.user != t.user)
  let cands := q1.filter (fun u => compatible t u)
  match closest t.rating cands with
  | none => (none, q1)
  | some opp =>
      (some (opp.user, t.user),
       q1.filter (fun u => u.user != t.user && u.user != opp.user))

/-- Python list-index resolution: non-negative in range, negative wrapping
from the end, otherwise an `IndexError` (`none`). -/
def pyIdx (len : Nat) (i : Int) : Option Nat :=
  if 0 ≤ i ∧ i < (len : Int) then some i.toNat
  else if -(len : Int) ≤ i ∧ i < 0 then some ((len : Int) + i).toNat
  else none

/-- Python `l[i]` (read). -/
def pyGet {α : Type} (l : List α) (i : Int) : Option α :=
  (pyIdx l.length i).bind (fun j => l.get? j)

/-- Python `l[i] = x` (write); `none` on `IndexError`. -/
def pySet {α : Type} (l : List α) (i : Int) (x : α) : Option (List α) :=
  (pyIdx l.length i).map (fun j => l.set j x)

/-- The player lookup shared by `api_validate_move` and `api_wildcard_hint`:
first by id string equality, then the `player_<index>` fallback into the
(unshuffled) pool. -/
def find_player (pool : List Player) (pid : String) : Option Player :=
  match pool.find? (fun p => p.id == pid) with
  | some p => some p
  | none =>
      if pid.startsWith "player_" then
        match (pid.drop 7).toNat? with
        | some idx => pool.get? idx
        | none => none
      else none

/-- The slice of the Flask session game state the move/wildcard endpoints
read: `gi["state"]["grid"]` and the optional `gi["state"]["grid_state"]`. -/
structure SessionGame where
  grid : List Cell
  grid_state : Option (List (Option String))
deriving DecidableEq, Repr

/-- The JSON reply of `api_validate_move`. -/
structure MoveReply where
  correct : Bool
  reason : Option String
deriving DecidableEq, Repr

/-- `api_validate_move` from the source; `Except.error ()` marks an uncaught
Python `IndexError`.  Returns the reply together with the session state
afterwards (the endpoint writes `grid_state` back only on a correct move). -/
def api_validate_move (pool : List Player) (ds : String) (pid : String)
    (cidx : Option Int) (gi : Option SessionGame) :
    Except Unit (MoveReply × Option SessionGame) :=
  match gi with
  | none => Except.ok (⟨false, some "no_session"⟩, none)
  | some st =>
      let grid := st.grid
      let gst : List (Option String) :=
        match st.grid_state with
        | none => List.replicate grid.length none
        | some l => if l = [] then List.replicate grid.length none else l
      match cidx with
      | none => Except.ok (⟨false, none⟩, some st)
      | some ci =>
          if (grid.length : Int) ≤ ci then Except.ok (⟨false, none⟩, some st)
          else
            match pyGet gst ci with
            | none => Except.error ()
            | some owner =>
                if owner ≠ none then
                  Except.ok (⟨false, some "already_filled"⟩, some st)
                else
                  match find_player pool pid with
                  | none => Except.ok (⟨false, some "player_not_found"⟩, some st)
                  | some player =>
                      match pyGet grid ci with
                      | none => Except.error ()
                      | some cell =>
                          if player_matches_cell player cell ds then
                            let base : List (Option String) :=
                              match st.grid_state with
                              | none => List.replicate grid.length none
                              | some l =>
                                  if l.length ≠ grid.length then
                                    List.replicate grid.length none
                                  else l
                            match pySet base ci (some pid) with
                            | none => Except.error ()
                            | some gst2 =>
                                Except.ok (⟨true, none⟩, some ⟨grid, some gst2⟩)
                          else Except.ok (⟨false, none⟩, some st)

/-- `api_wildcard_hint` from the source: the unfilled indices whose cell the
looked-up player matches.  The endpoint never writes the session back.
`Except.error ()` marks the `IndexError` raised when the stored
`grid_state` is shorter than the grid. -/
def api_wildcard_hint (pool : List Player) (ds : String) (pid : String)
    (gi : Option SessionGame) : Except Unit (List Nat) :=
  match gi with
  | none => Except.ok []
  | some st =>
      let grid := st.grid
      let gstate : List (Option String) :=
        match st.grid_state with
        | none => List.replicate grid.length none
        | some l => if l = [] then List.replicate grid.length none else l
      match find_player pool pid with
      | none => Except.ok []
      | some player =>
          if gstate.length < grid.length then Except.error ()
          else
            Except.ok ((List.range grid.length).filter (fun i =>
              decide (gstate.getD i none = none) &&
              player_matches_cell player (grid.getD i ⟨"", ""⟩) ds))

/-- The client-side game object `G` (the fields the wildcard path touches). -/
structure ClientG where
  players : List Player
  idx : Nat
  gstate : List (Option String)
  correct : Nat
  wrong : Nat
  skips : Nat
  wcUsed : Bool
  ended : Bool
deriving Repr

/-- The player id the client sends: `p.id || ('player_' + G.idx)` (JS falsy
fallback on the empty id). -/
def client_pid (p : Player) (idx : Nat) : String :=
  if p.id ≠ "" then p.id else "player_" ++ toString idx

/-- `doWildcard()` from the client script combined with the server reply:
a no-op when the wildcard was already used, the game ended or the candidate
queue is exhausted; otherwise it marks the wildcard used and asks
`api_wildcard_hint` for the matching cells of the current candidate.
`srv` is the server-session copy of the state (`session["game_state"]`). -/
def doWildcard (pool : List Player) (ds : String) (g : ClientG)
    (srv : Option SessionGame) : Option (Except Unit (List Nat)) × ClientG :=
  if g.wcUsed ∨ g.ended ∨ g.players.length ≤ g.idx then (none, g)
  else
    let p := g.players.getD g.idx dfltPlayer
    (some (api_wildcard_hint pool ds (client_pid p g.idx) srv),
     { g with wcUsed := true })

/-- Constant-stream generator used for concrete evaluations. -/
def rng0 : Rng := ⟨fun _ => 0, 0⟩

/-- The spec's combo example cell `"Mumbai Indians + India"`. -/
def comboCellEx : Cell := ⟨"combo", "Mumbai Indians + India"⟩

/-- The spec's combo example player: teams `["Mumbai Indians"]`, nation
`"Australia"`. -/
def comboPlayerEx : Player := ⟨"p9", "X", "Australia", "", ["Mumbai Indians"], []⟩

/-- A non-empty pool whose players have no team data at all. -/
def teamlessPools : Pools := ⟨[⟨"p1", "A", "India", "", [], []⟩], []⟩

/-- A small two-player pool with team data. -/
def smallPools : Pools :=
  ⟨[⟨"p1", "A", "India", "CSK", ["CSK"], []⟩,
    ⟨"p2", "B", "Australia", "MI", ["MI"], []⟩], []⟩

/-- Pools with both data sources empty. -/
def emptyPools : Pools := ⟨[], []⟩

/-- Concrete player for the out-of-bounds move scenario. -/
def cbPlayer : Player := ⟨"p1", "A", "India", "", ["CSK"], []⟩

/-- Concrete one-cell session: an unfilled `"team"/"CSK"` cell. -/
def cbSession : SessionGame := ⟨[⟨"team", "CSK"⟩], some [none]⟩

/-- Concrete player for the wildcard scenario. -/
def wcPlayer : Player := ⟨"p1", "A", "India", "", ["CSK"], []⟩

/-- Concrete client state for the wildcard scenario. -/
def wcClient : ClientG :=
  ⟨[wcPlayer], 0, [none, some "x", none], 0, 0, 3, false, false⟩

/-- Concrete server session for the wildcard scenario: cell 0 matches and is
unfilled, cell 1 matches but is filled, cell 2 does not match. -/
def wcSession : SessionGame :=
  ⟨[⟨"team", "CSK"⟩, ⟨"team", "CSK"⟩, ⟨"team", "MI"⟩], some [none, some "x", none]⟩

/-- C1: a Combo cell is a conjunctive constraint: the evaluator returns true
iff every "+"-separated, whitespace-trimmed part of the cell value is
independently a team of the player, the player's nation, or a trophy of the
player. -/
theorem combo_cell_conjunctive (player : Player) (cell : Cell) (ds : String)
    (h : cell.type = "combo") :
    player_matches_cell player cell ds = true ↔
      ∀ part ∈ (pySplitPlus cell.value).map pyStrip,
        part ∈ teams_of player ds ∨ part = player.nation ∨
        part ∈ trophies_of player ds := by
  simp [player_matches_cell, h, List.all_eq_true, or_assoc]

/-- Witness for C1 at the spec's example: cell `"Mumbai Indians + India"`
against a player with teams `["Mumbai Indians"]` and nation `"Australia"`
evaluates to false (only one of the two parts matches). -/
theorem combo_cell_conjunctive_witness :
    comboCellEx.type = "combo" ∧
    player_matches_cell comboPlayerEx comboCellEx "overall" = false := by
  refine ⟨rfl, ?_⟩
  have h := combo_cell_conjunctive comboPlayerEx comboCellEx "overall" rfl
  rw [← Bool.not_eq_true, h]
  decide

/-- C3: at any point of a session the client score equals
`max(0, round(correct*100 + accuracy*2 + completionBonus -
max(0, (elapsed - size²*15) * 0.5)))` with `accuracy =
correct/(correct+wrong)*100` (0 with no attempts) and a 200 completion
bonus exactly when every grid cell is filled. -/
theorem calcScore_eq_spec (c w : Nat) (gst : List (Option String)) (el : ℚ)
    (gs : Nat) :
    calcScore c w gst el gs = score_spec c w gst el gs ∧
    (completionBonus_spec gst = 200 ↔ gst.all (fun x => x.isSome) = true) := by
  constructor
  · unfold calcScore score_spec accuracy_spec completionBonus_spec
    rcases Nat.eq_zero_or_pos (c + w) with h | h
    · simp [h]
    · simp [h, Nat.pos_iff_ne_zero.mp h]
  · unfold completionBonus_spec
    split <;> simp_all

/-- C5: with both players at the same pre-match rating, the simultaneous
k=32 updates of `api_end_game` (winner gets actual 1 and expectation `exp`,
loser actual 0 and expectation `1-exp`) produce rating deltas of equal
magnitude and opposite sign. -/
theorem elo_deltas_opposite (rat1 rat2 exp act : ℚ) (h : rat1 = rat2)
    (hact : act = 1 ∨ act = 0) :
    (rated_deltas rat1 rat2 exp act).1 = -(rated_deltas rat1 rat2 exp act).2 ∧
    |(rated_deltas rat1 rat2 exp act).1| =
      |(rated_deltas rat1 rat2 exp act).2| := by
  have h1 : (rated_deltas rat1 rat2 exp act).1 =
      -(rated_deltas rat1 rat2 exp act).2 := by
    unfold rated_deltas elo_update; ring
  exact ⟨h1, by rw [h1, abs_neg]⟩

/-- Witness for C5 at ratings 1200/1200, expectation 1/2, winner outcome 1. -/
theorem elo_deltas_opposite_witness :
    (rated_deltas 1200 1200 (1 / 2) 1).1 = -(rated_deltas 1200 1200 (1 / 2) 1).2 ∧
    |(rated_deltas 1200 1200 (1 / 2) 1).1| =
      |(rated_deltas 1200 1200 (1 / 2) 1).2| :=
  elo_deltas_opposite 1200 1200 (1 / 2) 1 rfl (Or.inl rfl)

/-- C6: the rated-match winner is the player with strictly higher reported
score, ties on score going to the player with lower-or-equal elapsed time;
in particular 500 points in 45 seconds beats 500 points in 60 seconds. -/
theorem winner_resolution :
    (∀ s1 e1 s2 e2 : ℚ, resolve_winner s1 e1 s2 e2 = winner_spec s1 e1 s2 e2) ∧
    resolve_winner 500 60 500 45 = Winner.p2 := by
  constructor
  · intro s1 e1 s2 e2
    unfold resolve_winner winner_spec
    by_cases h1 : s1 > s2
    · rw [if_pos (Or.inl h1), if_pos h1]
    · by_cases h2 : s2 > s1
      · rw [if_neg (by rintro (h | ⟨hs, _⟩) <;> linarith), if_neg h1, if_pos h2]
      · have hs : s1 = s2 := le_antisymm (not_lt.mp h1) (not_lt.mp h2)
        by_cases he : e1 ≤ e2
        · rw [if_pos (Or.inr ⟨hs, he⟩), if_neg h1, if_neg h2, if_pos he]
        · rw [if_neg (by rintro (h | ⟨_, he2⟩) <;> [linarith; exact he he2]),
              if_neg h1, if_neg h2, if_neg he]
  · unfold resolve_winner
    rw [if_neg (by
      rintro (h | ⟨_, he⟩)
      · exact absurd h (by norm_num)
      · exact absurd he (by norm_num))]

/-- C9: grid generation on an empty pool returns the empty grid, and
session creation on an empty pool returns `none` (a hard failure distinct
from any constructed game state). -/
theorem empty_pool_fails (pools : Pools) (ds difficulty : String) (size : Nat)
    (r g : Rng) (seed : Option Nat) (seedGen : Nat → Nat → Nat) (now : ℚ)
    (hp : getPool pools ds = []) :
    (build_grid size ds difficulty pools r).1 = [] ∧
    (create_game_state pools ds size difficulty seed seedGen g now).1 = none := by
  constructor
  · unfold build_grid
    simp [hp]
  · unfold create_game_state
    cases seed <;> simp [hp]

/-- Witness for C9 on concretely empty pools. -/
theorem empty_pool_fails_witness :
    getPool emptyPools "overall" = [] ∧
    (build_grid 3 "overall" "easy" emptyPools rng0).1 = [] ∧
    (create_game_state emptyPools "overall" 3 "easy" (some 1) (fun _ _ => 0)
      rng0 0).1 = none := by
  refine ⟨rfl, ?_⟩
  exact empty_pool_fails emptyPools "overall" "easy" 3 rng0 rng0 (some 1)
    (fun _ _ => 0) 0 rfl

/-- C10: game-state creation is deterministic given a seed: with the same
loaded pools and the same seed, two calls — regardless of the ambient
generator state and wall clock — produce identical grid cells and the
identical candidate player sequence.  (The daily challenge calls this with
the date-derived seed `sha256(date) % 9999999`, so every user of a given
day gets the same grid and player order.) -/
theorem create_game_state_deterministic (pools : Pools) (ds difficulty : String)
    (grid_size : Nat) (seedGen : Nat → Nat → Nat) (s : Nat) (g1 g2 : Rng)
    (now1 now2 : ℚ) :
    ((create_game_state pools ds grid_size difficulty (some s) seedGen g1 now1).1).map
        (fun st => (st.grid, st.players)) =
    ((create_game_state pools ds grid_size difficulty (some s) seedGen g2 now2).1).map
        (fun st => (st.grid, st.players)) := by
  by_cases hp : getPool pools ds = [] <;> simp [create_game_state, hp]

/-- C7: two matchmaking tickets with identical
`(dataSource, gridSize, difficulty)` pair on the second enqueue when their
rating difference is at most 300 (both tickets are removed, the opponent
becomes player 1); at a difference of 301 they do not pair and the second
ticket stays queued. -/
theorem matchmaking_threshold (t1 t2 : Ticket) (hu : t1.user ≠ t2.user)
    (hds : t1.ds = t2.ds) (hgs : t1.gs = t2.gs) (hdf : t1.diff = t2.diff) :
    (|t1.rating - t2.rating| ≤ 300 →
      (enqueue (enqueue [] t1).2 t2).1 = some (t1.user, t2.user) ∧
      (enqueue (enqueue [] t1).2 t2).2 = []) ∧
    (|t1.rating - t2.rating| = 301 →
      (enqueue (enqueue [] t1).2 t2).1 = none ∧
      (enqueue (enqueue [] t1).2 t2).2 = [t2, t1]) := by
  have h0 : (enqueue [] t1).2 = [t1] := by
    simp [enqueue, compatible, closest]
  have hself : compatible t2 t2 = false := by
    simp [compatible]
  constructor
  · intro hle
    have hcomp : compatible t2 t1 = true := by
      simp [compatible, hu, hds, hgs, hdf, hle]
    rw [h0]
    simp [enqueue, List.filter_cons, hu, hself, hcomp, closest]
  · intro heq
    have hn : ¬ |t1.rating - t2.rating| ≤ 300 := by rw [heq]; norm_num
    have hcomp : compatible t2 t1 = false := by
      simp [compatible, hn]
    rw [h0]
    simp [enqueue, List.filter_cons, hu, hself, hcomp, closest]

/-- Witness for C7: ratings 1200 vs 1500 (difference 300) with identical
parameters pair on the second enqueue, and both tickets are removed. -/
theorem matchmaking_threshold_witness :
    ((⟨1, 1200, "overall", 3, "normal"⟩ : Ticket).user ≠
      (⟨2, 1500, "overall", 3, "normal"⟩ : Ticket).user) ∧
    (enqueue (enqueue [] ⟨1, 1200, "overall", 3, "normal"⟩).2
        ⟨2, 1500, "overall", 3, "normal"⟩).1 = some (1, 2) ∧
    (enqueue (enqueue [] ⟨1, 1200, "overall", 3, "normal"⟩).2
        ⟨2, 1500, "overall", 3, "normal"⟩).2 = [] := by
  refine ⟨by decide, ?_⟩
  exact (matchmaking_threshold ⟨1, 1200, "overall", 3, "normal"⟩
    ⟨2, 1500, "overall", 3, "normal"⟩ (by decide) rfl rfl rfl).1 (by norm_num)

/-- C8: in an in-progress session whose wildcard is unused, `doWildcard`
returns exactly the unfilled cell indices matching the current candidate
and changes nothing but `wcUsed` (cursor, counts and fill state are
untouched; the server endpoint never writes the session back); with the
wildcard already used it is a refused no-op. -/
theorem wildcard_hint_spec (pool : List Player) (ds : String) (g : ClientG)
    (srv : Option SessionGame) :
    (g.wcUsed = true → doWildcard pool ds g srv = (none, g)) ∧
    (∀ st : SessionGame,
      g.wcUsed = false → g.ended = false → g.idx < g.players.length →
      srv = some st → st.grid_state = some g.gstate →
      g.gstate.length = st.grid.length →
      find_player pool (client_pid (g.players.getD g.idx dfltPlayer) g.idx) =
        some (g.players.getD g.idx dfltPlayer) →
      ∃ l, doWildcard pool ds g srv =
          (some (Except.ok l), { g with wcUsed := true }) ∧
        ∀ i, i ∈ l ↔ i < st.grid.length ∧ g.gstate.getD i none = none ∧
          player_matches_cell (g.players.getD g.idx dfltPlayer)
            (st.grid.getD i ⟨"", ""⟩) ds = true) := by
  constructor
  · intro hw
    unfold doWildcard
    rw [if_pos (Or.inl hw)]
  · intro st hw he hi hsrv hgs hlen hfind
    have hcond : ¬ (g.wcUsed = true ∨ g.ended = true ∨
        g.players.length ≤ g.idx) := by
      rintro (h | h | h)
      · rw [hw] at h; exact Bool.false_ne_true h
      · rw [he] at h; exact Bool.false_ne_true h
      · exact absurd hi (not_lt.mpr h)
    have hgst : (if g.gstate = [] then
        List.replicate st.grid.length (none : Option String)
        else g.gstate) = g.gstate := by
      by_cases hnil : g.gstate = []
      · have : st.grid.length = 0 := by rw [← hlen, hnil]; rfl
        rw [if_pos hnil, this, hnil]; rfl
      · rw [if_neg hnil]
    refine ⟨(List.range st.grid.length).filter (fun i =>
      decide (g.gstate.getD i none = none) &&
      player_matches_cell (g.players.getD g.idx dfltPlayer)
        (st.grid.getD i ⟨"", ""⟩) ds), ?_, ?_⟩
    · unfold doWildcard
      rw [if_neg hcond]
      unfold api_wildcard_hint
      rw [hsrv]
      simp only [hgs, hgst, hfind]
      rw [if_neg (by rw [hlen]; exact lt_irrefl _)]
    · intro i
      simp [List.mem_filter, List.mem_range, and_assoc]

/-- Witness for C8 at a concrete in-progress session: one matching unfilled
cell, one filled cell, one non-matching cell. -/
theorem wildcard_hint_spec_witness :
    ∃ l, doWildcard [wcPlayer] "overall" wcClient (some wcSession) =
        (some (Except.ok l), { wcClient with wcUsed := true }) ∧
      ∀ i, i ∈ l ↔ i < wcSession.grid.length ∧
        wcClient.gstate.getD i none = none ∧
        player_matches_cell (wcClient.players.getD wcClient.idx dfltPlayer)
          (wcSession.grid.getD i ⟨"", ""⟩) "overall" = true :=
  (wildcard_hint_spec [wcPlayer] "overall" wcClient (some wcSession)).2
    wcSession rfl rfl (by decide) rfl rfl rfl (by decide)

/-- C4 (failing input): the bounds check of `api_validate_move` only tests
`cidx >= len(grid)`, so the out-of-bounds index `-1` (outside `0..size²-1`)
is NOT rejected as an invalid move: Python's negative indexing aliases it
to the last cell, the move is evaluated, reported correct, and the grid
fill state is mutated — contradicting the claim that every out-of-bounds
index fails with `InvalidMove` and leaves the fill state unchanged. -/
theorem validate_move_negative_index :
    api_validate_move [cbPlayer] "overall" "p1" (some (-1)) (some cbSession) =
      Except.ok (⟨true, none⟩, some ⟨[⟨"team", "CSK"⟩], some [some "p1"]⟩) := by
  rfl

/-- Removing the element at index `i` and re-consing it permutes the list. -/
theorem getD_cons_eraseIdx_perm {α : Type} :
    ∀ (l : List α) (i : Nat), i < l.length → ∀ d : α,
      (l.getD i d :: l.eraseIdx i).Perm l := by
  intro l
  induction l with
  | nil => intro i hi d; simp at hi
  | cons a as ih =>
      intro i hi d
      cases i with
      | zero => simp
      | succ j =>
          have hj : j < as.length := by simpa using hi
          have step := ih j hj d
          have e1 : (a :: as).getD (j + 1) d = as.getD j d := rfl
          have e2 : (a :: as).eraseIdx (j + 1) = a :: as.eraseIdx j := rfl
          rw [e1, e2]
          exact (List.Perm.swap a (as.getD j d) (as.eraseIdx j)).trans (step.cons a)

/-- The fuelled shuffle with enough fuel permutes its input. -/
theorem shuffleAux_perm {α : Type} :
    ∀ (fuel : Nat) (l : List α) (r : Rng), l.length ≤ fuel →
      ((shuffleAux fuel l r).1).Perm l := by
  intro fuel
  induction fuel with
  | zero =>
      intro l r h
      have : l = [] := List.eq_nil_of_length_eq_zero (Nat.le_zero.mp h)
      subst this
      simp [shuffleAux]
  | succ n ih =>
      intro l r h
      cases l with
      | nil => simp [shuffleAux]
      | cons a as =>
          have hi : (Rng.next r).1 % (a :: as).length < (a :: as).length :=
            Nat.mod_lt _ (by simp)
          have hrest :
              ((a :: as).eraseIdx ((Rng.next r).1 % (a :: as).length)).length ≤ n := by
            have e := List.length_eraseIdx_add_one hi
            simp only [List.length_cons] at h e ⊢
            omega
          exact ((ih _ _ hrest).cons _).trans
            (getD_cons_eraseIdx_perm (a :: as) _ hi a)

/-- `shuffleRng` permutes its input. -/
theorem shuffleRng_perm {α : Type} (l : List α) (r : Rng) :
    ((shuffleRng l r).1).Perm l :=
  shuffleAux_perm l.length l r le_rfl

/-- A requested team cell keeps kind "team" whenever the pool offers at
least one team name. -/
theorem gen_cell_team_type (pool : List Player) (ds difficulty : String)
    (r : Rng) (hp : pool ≠ []) (ht : teamsList ds pool ≠ []) :
    ((gen_cell pool ds difficulty "team" r).1).type = "team" := by
  unfold gen_cell
  rw [if_neg hp, if_neg (by simp), if_pos ⟨rfl, ht⟩]

/-- A requested nation cell always has kind "nation" (the source's final
fallback also produces a nation cell). -/
theorem gen_cell_nation_type (pool : List Player) (ds difficulty : String)
    (r : Rng) (hp : pool ≠ []) :
    ((gen_cell pool ds difficulty "nation" r).1).type = "nation" := by
  unfold gen_cell
  rw [if_neg hp, if_neg (by simp), if_neg (by simp)]
  by_cases hn : nationsList pool = []
  · rw [if_neg (by simp [hn]), if_neg (by simp), if_pos hn]
  · rw [if_pos ⟨rfl, hn⟩]

/-- A requested combo cell under hard difficulty always has kind "combo". -/
theorem gen_cell_combo_type (pool : List Player) (ds : String) (r : Rng)
    (hp : pool ≠ []) :
    ((gen_cell pool ds "hard" "combo" r).1).type = "combo" := by
  unfold gen_cell
  rw [if_neg hp, if_pos ⟨rfl, rfl⟩]
  dsimp only
  split_ifs <;> rfl

/-- Cells produced by the retry loop keep the kind `gen_cell` guarantees. -/
theorem tryGen_type (pool : List Player) (ds difficulty t : String)
    (hall : ∀ r' : Rng, ((gen_cell pool ds difficulty t r').1).type = t) :
    ∀ (fuel : Nat) (seen : List String) (r : Rng) (c : Cell),
      (tryGen pool ds difficulty t fuel seen r).1 = some c → c.type = t := by
  intro fuel
  induction fuel with
  | zero => intro seen r c h; simp [tryGen] at h
  | succ n ih =>
      intro seen r c h
      unfold tryGen at h
      dsimp only at h
      split_ifs at h with hm
      · exact ih seen _ c h
      · simp at h
        rw [← h]
        exact hall r

/-- The generation fold reproduces the requested kinds position by
position. -/
theorem genLoop_types (pool : List Player) (ds difficulty : String) :
    ∀ (tys seen : List String) (r : Rng),
      (∀ t ∈ tys, ∀ r' : Rng, ((gen_cell pool ds difficulty t r').1).type = t) →
      ((genLoop pool ds difficulty tys seen r).1).map (fun c => c.type) = tys := by
  intro tys
  induction tys with
  | nil => intro seen r _; simp [genLoop]
  | cons t ts ih =>
      intro seen r h
      have hhead := h t (List.mem_cons_self t ts)
      have htail : ∀ u ∈ ts, ∀ r' : Rng,
          ((gen_cell pool ds difficulty u r').1).type = u :=
        fun u hu => h u (List.mem_cons_of_mem t hu)
      unfold genLoop
      cases htg : (tryGen pool ds difficulty t 20 seen r).1 with
      | some c =>
          simp only [htg, List.map_cons]
          rw [tryGen_type pool ds difficulty t hhead 20 seen r c htg,
              ih _ _ htail]
      | none =>
          simp only [htg, List.map_cons]
          rw [hhead, ih _ _ htail]

/-- C2 (amended): for every non-empty pool that offers at least one team
name for the data source, `build_grid` returns exactly `size²` cells whose
kinds meet the difficulty quota: easy → n Team; normal → n/2 Team and
n - n/2 Nation; hard → n/3 Team, n/3 Nation and n - 2*(n/3) Combo
(n = size²), in shuffled order.  (Without the team-name hypothesis, Team
requests fall back to Nation cells — see the counterexample.) -/
theorem build_grid_quota (pools : Pools) (ds difficulty : String) (size : Nat)
    (r : Rng) (hp : getPool pools ds ≠ [])
    (ht : teamsList ds (getPool pools ds) ≠ []) :
    ((build_grid size ds difficulty pools r).1).length = size * size ∧
    (difficulty = "easy" →
      ((build_grid size ds difficulty pools r).1).countP
          (fun c => c.type == "team") = size * size ∧
      ((build_grid size ds difficulty pools r).1).countP
          (fun c => c.type == "nation") = 0 ∧
      ((build_grid size ds difficulty pools r).1).countP
          (fun c => c.type == "combo") = 0) ∧
    (difficulty = "normal" →
      ((build_grid size ds difficulty pools r).1).countP
          (fun c => c.type == "team") = size * size / 2 ∧
      ((build_grid size ds difficulty pools r).1).countP
          (fun c => c.type == "nation") = size * size - size * size / 2 ∧
      ((build_grid size ds difficulty pools r).1).countP
          (fun c => c.type == "combo") = 0) ∧
    (difficulty = "hard" →
      ((build_grid size ds difficulty pools r).1).countP
          (fun c => c.type == "team") = size * size / 3 ∧
      ((build_grid size ds difficulty pools r).1).countP
          (fun c => c.type == "nation") = size * size / 3 ∧
      ((build_grid size ds difficulty pools r).1).countP
          (fun c => c.type == "combo") = size * size - 2 * (size * size / 3)) := by
  have hperm : ((shuffleRng (quotaList difficulty (size * size)) r).1).Perm
      (quotaList difficulty (size * size)) := shuffleRng_perm _ r
  have hgood : ∀ t ∈ (shuffleRng (quotaList difficulty (size * size)) r).1,
      ∀ r' : Rng, ((gen_cell (getPool pools ds) ds difficulty t r').1).type = t := by
    intro t htmem r'
    have hq : t ∈ quotaList difficulty (size * size) := hperm.mem_iff.mp htmem
    unfold quotaList at hq
    by_cases he : difficulty = "easy"
    · rw [if_pos he] at hq
      rw [List.eq_of_mem_replicate hq]
      exact gen_cell_team_type _ _ _ _ hp ht
    · rw [if_neg he] at hq
      by_cases hh : difficulty = "hard"
      · rw [if_pos hh] at hq
        rcases List.mem_append.mp hq with h12 | h3
        · rcases List.mem_append.mp h12 with h1 | h2
          · rw [List.eq_of_mem_replicate h1]
            exact gen_cell_team_type _ _ _ _ hp ht
          · rw [List.eq_of_mem_replicate h2]
            exact gen_cell_nation_type _ _ _ _ hp
        · rw [List.eq_of_mem_replicate h3]
          subst hh
          exact gen_cell_combo_type _ _ _ hp
      · rw [if_neg hh] at hq
        rcases List.mem_append.mp hq with h1 | h2
        · rw [List.eq_of_mem_replicate h1]
          exact gen_cell_team_type _ _ _ _ hp ht
        · rw [List.eq_of_mem_replicate h2]
          exact gen_cell_nation_type _ _ _ _ hp
  have hmap : ((build_grid size ds difficulty pools r).1).map (fun c => c.type) =
      (shuffleRng (quotaList difficulty (size * size)) r).1 := by
    unfold build_grid
    dsimp only
    rw [if_neg hp]
    exact genLoop_types _ _ _ _ _ _ hgood
  have hcount : ∀ k : String,
      ((build_grid size ds difficulty pools r).1).countP (fun c => c.type == k) =
        (quotaList difficulty (size * size)).count k := by
    intro k
    have h1 : ((build_grid size ds difficulty pools r).1).countP
        (fun c => c.type == k) =
        (((build_grid size ds difficulty pools r).1).map
          (fun c => c.type)).countP (fun s => s == k) := by
      rw [List.countP_map]
      rfl
    rw [h1, hmap]
    exact hperm.count_eq k
  have hlen : ((build_grid size ds difficulty pools r).1).length =
      (quotaList difficulty (size * size)).length := by
    have := congrArg List.length hmap
    rw [List.length_map] at this
    rw [this]
    exact hperm.length_eq
  refine ⟨?_, ?_, ?_, ?_⟩
  · rw [hlen]
    unfold quotaList
    split_ifs <;> simp <;> omega
  · intro he
    refine ⟨?_, ?_, ?_⟩ <;> rw [hcount] <;> simp [quotaList, he, List.count_replicate]
  · intro hno
    have he : ¬ difficulty = "easy" := by rw [hno]; decide
    have hh : ¬ difficulty = "hard" := by rw [hno]; decide
    refine ⟨?_, ?_, ?_⟩ <;> rw [hcount] <;>
      simp [quotaList, he, hh, List.count_append, List.count_replicate]
  · intro hh
    have he : ¬ difficulty = "easy" := by rw [hh]; decide
    refine ⟨?_, ?_, ?_⟩ <;> rw [hcount] <;>
      simp [quotaList, he, hh, List.count_append, List.count_replicate]

/-- Counterexample for C2 as stated ("for every non-empty pool"): a
non-empty pool with no team data produces, for size 3 and easy difficulty,
9 cells of which 0 are Team cells (every team request falls back to a
Nation cell), instead of the quota's 9 Team cells. -/
theorem build_grid_quota_cex :
    getPool teamlessPools "overall" ≠ [] ∧
    ((build_grid 3 "overall" "easy" teamlessPools rng0).1).length = 9 ∧
    ((build_grid 3 "overall" "easy" teamlessPools rng0).1).countP
        (fun c => c.type == "team") = 0 ∧
    ((build_grid 3 "overall" "easy" teamlessPools rng0).1).countP
        (fun c => c.type == "nation") = 9 := by
  refine ⟨by decide, by decide, by decide, by decide⟩

/-- Witness for C2 (amended) on a concrete two-player pool with team data:
size 3 at normal difficulty yields exactly 4 Team and 5 Nation cells. -/
theorem build_grid_quota_witness :
    getPool smallPools "overall" ≠ [] ∧
    teamsList "overall" (getPool smallPools "overall") ≠ [] ∧
    ((build_grid 3 "overall" "normal" smallPools rng0).1).countP
        (fun c => c.type == "team") = 4 ∧
    ((build_grid 3 "overall" "normal" smallPools rng0).1).countP
        (fun c => c.type == "nation") = 5 := by
  have h := build_grid_quota smallPools "overall" "normal" 3 rng0 (by decide)
    (by decide)
  exact ⟨by decide, by decide, (h.2.2.1 rfl).1, (h.2.2.1 rfl).2.1⟩
